import Mathlib

/-!
Verification of the `ItemList` core of the position-structs repository
(`src/internal/item_list.ts`, here `src/unnamed/part_000`), against its
natural-language specification.

Embedding conventions:
* A tree node is identified by its path from the root: the list of child
  indices (`NodeId`); the root is `[]`, the parent of `p ++ [i]` is `p`.
  The external position tree (`Order`) is a pair of functions giving each
  node its number of children and its `nextValueIndex`.
* The sparse item store (`sparse_items.ts`, absent from `src/`) is
  modelled from the spec as a plain slot sequence `List (Option α)`;
  run-length structure is a representation detail of the contracts in
  spec section 4.1, which are what `ItemList` relies on.
* JavaScript `Map` semantics (insertion order, in-place update) are
  mirrored by an association list with update-in-place / append.
* JavaScript numbers used for totals and indices are embedded as `Int`.
* Methods that can `throw` return an `Except` value paired with the
  resulting state.
-/

/-- A node of the external position tree, identified by its path of child
indices from the root (`[]` is the root, `dropLast` is `parent`). -/
abbrev NodeId := List Nat

/-- A `Position` is a pair of a node and a slot (`valueIndex`); the node
reference is its resolved `NodeId` (provider resolution succeeded). -/
abbrev Position := NodeId × Nat

/-- Modelled from the spec: the external position provider (`Order`,
absent from `src/`). `childCounts p` is `childrenLength` of node `p`;
`nvi p` is the `nextValueIndex` of a non-root node `p` (the parent slot
at or before which `p` is anchored). -/
structure OrderTree where
  childCounts : NodeId → Nat
  nvi : NodeId → Nat

/-- The children of a node, in the provider's child order. -/
def childList (t : OrderTree) (p : NodeId) : List NodeId :=
  (List.range (t.childCounts p)).map (fun i => p ++ [i])

/-- Modelled from the spec: `Order.getNode` succeeds exactly on nodes the
provider knows, i.e. paths whose every step is a real child index. -/
def validNode (t : OrderTree) (p : NodeId) : Bool :=
  (List.range p.length).all (fun k => decide (p.getD k 0 < t.childCounts (p.take k)))

/-- Modelled from the spec: `Order.MIN_POSITION`, the root sentinel at slot 0. -/
def minPosition : Position := ([], 0)

/-- Modelled from the spec: `Order.MAX_POSITION`, the root sentinel at slot 1. -/
def maxPosition : Position := ([], 1)

/-- The walk `node, node.parent, …, root` used by `onUpdate`. -/
def pathChain (p : NodeId) : List NodeId :=
  (List.range (p.length + 1)).map (fun k => p.take (p.length - k))

/-- The non-root part of the ancestor walk used by `indexOfPosition`
(`current` ranges over `node, …` while `current.parent ≠ null`). -/
def nonRootChain (p : NodeId) : List NodeId :=
  (List.range p.length).map (fun k => p.take (p.length - k))

/-! ### Sparse item store (spec section 4.1), modelled from the spec -/

/-- Modelled from the spec: a sparse sequence (`SparseItems`), as the
abstract slot sequence; slot `i` is present iff entry `i` is `some`. -/
abbrev Sparse (α : Type) := List (Option α)

/-- Pad a sequence with absent slots up to length `n`. -/
def sparsePad (seq : Sparse α) (n : Nat) : Sparse α :=
  seq ++ List.replicate (n - seq.length) none

/-- Modelled from the spec: `size` — the total present count. -/
def sparseSize (seq : Sparse α) : Nat :=
  seq.countP (fun o => o.isSome)

/-- Modelled from the spec: `getInfo(seq, i)` returns
`(value?, present, presentBefore)`. -/
def sparseGetInfo (seq : Sparse α) (i : Nat) : Option α × Bool × Nat :=
  let v := seq.getD i none
  (v, v.isSome, (seq.take i).countP (fun o => o.isSome))

/-- Modelled from the spec: `set(seq, i, item)` writes `item.length`
present slots at `i` and returns `(seq', displaced)` where `displaced`
is the sub-sequence previously occupying `[i, i + item.length)`. -/
def sparseSet (seq : Sparse α) (i : Nat) (item : List α) :
    Sparse α × Sparse α :=
  let L := item.length
  let padded := sparsePad seq (i + L)
  (padded.take i ++ item.map some ++ padded.drop (i + L),
   (padded.drop i).take L)

/-- Modelled from the spec: `delete(seq, i, n)` writes `n` absent slots at
`i` (a negative JavaScript count writes nothing) and returns
`(seq', displaced)`. -/
def sparseDelete (seq : Sparse α) (i : Nat) (n : Int) :
    Sparse α × Sparse α :=
  let c := n.toNat
  let padded := sparsePad seq (i + c)
  (padded.take i ++ List.replicate c none ++ padded.drop (i + c),
   (padded.drop i).take c)

/-- Modelled from the spec: `trim` drops the trailing absent run. -/
def sparseTrim (seq : Sparse α) : Sparse α :=
  (seq.reverse.dropWhile (fun o => o.isNone)).reverse

/-- Modelled from the spec: the present `(slot, value)` pairs with slot in
`[a, b)` — one `nextSlice` step of a slicer resumed at slot `a`. -/
def sparseSlice (seq : Sparse α) (a b : Nat) : List (Nat × α) :=
  (List.range seq.length).filterMap (fun j =>
    if a ≤ j ∧ j < b then (seq.getD j none).map (fun v => (j, v)) else none)

/-- Modelled from the spec: `findPresentIndex(seq, start, k)` — the slot of
the `k`-th present value at or after `start` (`none` when it does not
exist; the source documents that the caller guarantees existence). -/
def sparseFindPresent (seq : Sparse α) (start k : Nat) : Option Nat :=
  ((List.range seq.length).filter
    (fun j => decide (start ≤ j) && (seq.getD j none).isSome)).get? k

/-! ### ItemList state -/

/-- `NodeData` from `item_list.ts`: the record held for a node. -/
structure NodeData (α : Type) where
  total : Int
  parentValuesBefore : Nat
  values : Sparse α
deriving DecidableEq, Repr

/-- The mutable fields of an `ItemList`: the `state` map (as an
insertion-ordered association list, mirroring a JavaScript `Map`) and the
single-entry `beforeNode` cache. -/
structure ItemState (α : Type) where
  recs : List (NodeId × NodeData α)
  cachedIndexNode : Option NodeId
  cachedIndex : Int
deriving DecidableEq, Repr

/-- A fresh `ItemList`'s state (`state` empty, `cachedIndexNode = null`,
`cachedIndex = -1`). -/
def emptyState : ItemState Nat :=
  { recs := [], cachedIndexNode := none, cachedIndex := -1 }

/-- `state.get(node)`. -/
def lookupRec (recs : List (NodeId × NodeData α)) (p : NodeId) :
    Option (NodeData α) :=
  (recs.find? (fun e => decide (e.1 = p))).map (fun e => e.2)

/-- `state.set(node, data)`: update in place, else append (JavaScript
`Map` insertion order). -/
def setRec : List (NodeId × NodeData α) → NodeId → NodeData α →
    List (NodeId × NodeData α)
  | [], p, d => [(p, d)]
  | e :: rest, p, d =>
    if e.1 = p then (p, d) :: rest else e :: setRec rest p d

/-- `state.delete(node)`. -/
def eraseRec (recs : List (NodeId × NodeData α)) (p : NodeId) :
    List (NodeId × NodeData α) :=
  recs.filter (fun e => decide (e.1 ≠ p))

/-- `ItemList.total(node)`: the record's `total`, or 0 without a record. -/
def nodeTotal (recs : List (NodeId × NodeData α)) (p : NodeId) : Int :=
  match lookupRec recs p with
  | none => 0
  | some d => d.total

/-- `ItemList.getOrCreateData`, returning the (possibly created) record
and the updated map; a created record seeds `parentValuesBefore` from the
parent's current values at the node's `nextValueIndex`. -/
def getOrCreateData (t : OrderTree) (recs : List (NodeId × NodeData α))
    (node : NodeId) : NodeData α × List (NodeId × NodeData α) :=
  match lookupRec recs node with
  | some d => (d, recs)
  | none =>
    let pvb : Nat :=
      if node = [] then 0
      else
        match lookupRec recs node.dropLast with
        | none => 0
        | some pd => (sparseGetInfo pd.values (t.nvi node)).2.2
    let d : NodeData α := { total := 0, parentValuesBefore := pvb, values := [] }
    (d, setRec recs node d)

/-- One iteration of `onUpdate`'s ancestor loop, exactly as the source
writes it: the record read and incremented is `getOrCreateData(node)` —
the *mutated* node — while the record deleted on a zero total is
`current`'s. -/
def totalStep (t : OrderTree) (node : NodeId) (delta : Int)
    (recs : List (NodeId × NodeData α)) (current : NodeId) :
    List (NodeId × NodeData α) :=
  let r := getOrCreateData t recs node
  let d := { r.1 with total := r.1.total + delta }
  let recs2 := setRec r.2 node d
  if d.total = 0 then eraseRec recs2 current else recs2

/-- Step 3 of `onUpdate`: refresh `parentValuesBefore` of each of `node`'s
children that has a record, from `node`'s current values. -/
def childFix (t : OrderTree) (recs : List (NodeId × NodeData α))
    (node : NodeId) : List (NodeId × NodeData α) :=
  match lookupRec recs node with
  | none => recs
  | some nodeData =>
    (childList t node).foldl (fun acc child =>
      match lookupRec acc child with
      | none => acc
      | some cd =>
        setRec acc child
          { cd with parentValuesBefore :=
              (sparseGetInfo nodeData.values (t.nvi child)).2.2 }) recs

namespace ItemList

/-- `ItemList.onUpdate(node, delta)`: drop the cache unless it points at
`node`; if `delta ≠ 0` run the (buggy) ancestor-total loop; then refresh
the children's `parentValuesBefore`. -/
def onUpdate (t : OrderTree) (s : ItemState α) (node : NodeId)
    (delta : Int) : ItemState α :=
  let cache := if s.cachedIndexNode = some node then s.cachedIndexNode else none
  let recs1 :=
    if delta = 0 then s.recs
    else (pathChain node).foldl (totalStep t node delta) s.recs
  { recs := childFix t recs1 node,
    cachedIndexNode := cache,
    cachedIndex := s.cachedIndex }

/-- Errors surfaced by `throw`s in the source. -/
inductive PErr where
  | invalidPosition
  | indexOutOfBounds
  | internal
  | missingNode
deriving DecidableEq, Repr

/-- `ItemList.set(startPos, item)`; an item is embedded as its list of
values. Returns the replaced sub-sequence and the new state. -/
def set (t : OrderTree) (s : ItemState α) (pos : Position)
    (item : List α) : Except PErr (Sparse α) × ItemState α :=
  let node := pos.1
  let L := item.length
  if L = 0 then (Except.ok [], s)
  else if node = [] ∧ pos.2 + L - 1 > 1 then (Except.error PErr.invalidPosition, s)
  else
    let r := getOrCreateData t s.recs node
    let w := sparseSet r.1.values pos.2 item
    let recs2 := setRec r.2 node { r.1 with values := sparseTrim w.1 }
    let s2 := onUpdate t { s with recs := recs2 } node
      ((L : Int) - (sparseSize w.2 : Int))
    (Except.ok w.2, s2)

/-- `ItemList.delete(startPos, count)`; `count` is a raw JavaScript
number, embedded as `Int`. The source has no count validation. -/
def delete (t : OrderTree) (s : ItemState α) (pos : Position)
    (count : Int) : Except PErr (Sparse α) × ItemState α :=
  let node := pos.1
  if count = 0 then (Except.ok [], s)
  else if node = [] ∧ (pos.2 : Int) + count - 1 > 1 then
    (Except.error PErr.invalidPosition, s)
  else
    match lookupRec s.recs node with
    | none => (Except.ok (List.replicate count.toNat none), s)
    | some d =>
      let w := sparseDelete d.values pos.2 count
      let recs2 := setRec s.recs node { d with values := sparseTrim w.1 }
      let s2 := onUpdate t { s with recs := recs2 } node
        (0 - (sparseSize w.2 : Int))
      (Except.ok w.2, s2)

/-- `ItemList.clear`: empty the state map and null the cached node (the
cached index itself is left as-is, as in the source). -/
def clear (s : ItemState α) : ItemState α :=
  { recs := [], cachedIndexNode := none, cachedIndex := s.cachedIndex }

/-- `ItemList.getInNode(node, valueIndex)`. -/
def getInNode (s : ItemState α) (node : NodeId) (vi : Nat) :
    Option α × Bool × Nat :=
  match lookupRec s.recs node with
  | none => (none, false, 0)
  | some d => sparseGetInfo d.values vi

/-- `ItemList.get(pos)`. -/
def get (s : ItemState α) (pos : Position) : Option α :=
  (getInNode s pos.1 pos.2).1

/-- `ItemList.has(pos)`. -/
def has (s : ItemState α) (pos : Position) : Bool :=
  (getInNode s pos.1 pos.2).2.1

/-- `ItemList.length`. -/
def length (s : ItemState α) : Int :=
  nodeTotal s.recs []

/-- The `searchDir` argument of `indexOfPosition`. -/
inductive SearchDir where
  | dirNone
  | dirLeft
  | dirRight
deriving DecidableEq, Repr

/-- The child loop of `indexOfPosition`: totals of `node`'s children up to
the first one with `nextValueIndex > valueIndex` (where the source
breaks). -/
def childTotalsUpTo (t : OrderTree) (recs : List (NodeId × NodeData α))
    (node : NodeId) (vi : Nat) : Int :=
  ((childList t node).takeWhile (fun c => decide (t.nvi c ≤ vi))).foldl
    (fun acc c => acc + nodeTotal recs c) 0

/-- The ancestor walk of `indexOfPosition` computing `beforeNode`: for each
non-root `current` on the path it adds — exactly as the source does —
`state.get(current.parent)?.parentValuesBefore ?? 0` plus the totals of
the siblings listed before `current`. -/
def beforeNodeWalk (t : OrderTree) (recs : List (NodeId × NodeData α))
    (node : NodeId) : Int :=
  ((nonRootChain node).map (fun q =>
    let par := q.dropLast
    (match lookupRec recs par with
     | none => (0 : Int)
     | some pd => (pd.parentValuesBefore : Int)) +
    ((childList t par).takeWhile (fun c => decide (c ≠ q))).foldl
      (fun acc c => acc + nodeTotal recs c) 0)).foldl (fun a b => a + b) 0

/-- `ItemList.indexOfPosition(pos, searchDir)`; also returns the state
because the call writes the single-entry cache. -/
def indexOfPosition (t : OrderTree) (s : ItemState α) (pos : Position)
    (dir : SearchDir) : Int × ItemState α :=
  let node := pos.1
  let info := getInNode s node pos.2
  let vb1 : Int := (info.2.2 : Int) + childTotalsUpTo t s.recs node pos.2
  let bs :=
    if s.cachedIndexNode = some node then (s.cachedIndex, s)
    else
      let b := beforeNodeWalk t s.recs node
      (b, { s with cachedIndexNode := some node, cachedIndex := b })
  let vb := vb1 + bs.1
  if info.2.1 then (vb, bs.2)
  else
    match dir with
    | SearchDir.dirNone => (-1, bs.2)
    | SearchDir.dirLeft => (vb - 1, bs.2)
    | SearchDir.dirRight => (vb, bs.2)

/-- Outcome of one pass over a node's children inside `positionAt`. -/
inductive DescendStep where
  | found (pos : Position)
  | into (child : NodeId) (remaining : Int)
  | exhausted
deriving Repr

/-- The `for` loop over `current`'s children inside `positionAt`,
carrying `remaining`, `nextValueIndex` and `prevParentValuesBefore`. -/
def posChildLoop (t : OrderTree) (recs : List (NodeId × NodeData α))
    (vals : Sparse α) (current : NodeId) :
    List NodeId → Int → Nat → Int → DescendStep
  | [], _, _, _ => DescendStep.exhausted
  | c :: rest, remaining, nextVI, prevPVB =>
    match lookupRec recs c with
    | none => posChildLoop t recs vals current rest remaining nextVI prevPVB
    | some cd =>
      let between : Int := (cd.parentValuesBefore : Int) - prevPVB
      if remaining < between then
        match sparseFindPresent vals nextVI remaining.toNat with
        | some slot => DescendStep.found (current, slot)
        | none => DescendStep.exhausted
      else
        let rem2 := remaining - between
        if rem2 < cd.total then DescendStep.into c rem2
        else posChildLoop t recs vals current rest (rem2 - cd.total)
          (t.nvi c) (cd.parentValuesBefore : Int)

/-- The `while (true)` descent of `positionAt`. Fuel bounds the descent;
each step descends into a node that holds a record, so
`recs.length + 1` fuel can never run out. A missing record for `current`
models the source's non-null assertion blowing up. -/
def posDescend (t : OrderTree) (recs : List (NodeId × NodeData α)) :
    Nat → NodeId → Int → Except PErr Position
  | 0, _, _ => Except.error PErr.internal
  | fuel + 1, current, remaining =>
    match lookupRec recs current with
    | none => Except.error PErr.internal
    | some cd =>
      match posChildLoop t recs cd.values current (childList t current)
          remaining 0 0 with
      | DescendStep.found pos => Except.ok pos
      | DescendStep.into child rem2 => posDescend t recs fuel child rem2
      | DescendStep.exhausted => Except.error PErr.internal

/-- `ItemList.positionAt(index)`. -/
def positionAt (t : OrderTree) (s : ItemState α) (i : Int) :
    Except PErr Position :=
  if i < 0 ∨ length s ≤ i then Except.error PErr.indexOutOfBounds
  else posDescend t s.recs (s.recs.length + 1) [] i

/-- The `end` normalisation step of `normalizeSliceRange`. -/
def normEnd (len : Int) (stop : Option Int) : Int :=
  match stop with
  | none => len
  | some e =>
    if e ≥ len then len
    else if e < -len then 0
    else if e < 0 then e + len
    else e

/-- `ItemList.normalizeSliceRange(start, end)`. -/
def normalizeSliceRange (len : Int) (start stop : Option Int) :
    Option (Int × Int) :=
  let st :=
    match start with
    | none => some (0 : Int)
    | some a =>
      if a < -len then some 0
      else if a < 0 then some (a + len)
      else if a ≥ len then none
      else some a
  match st with
  | none => none
  | some a =>
    let e := normEnd len stop
    if e ≤ a then none else some (a, e)

/-- One stack frame of `entries`: the node, a snapshot of its values (held
by the frame's slicer), the next child index, and the slicer's resume
slot. -/
structure Frame (α : Type) where
  node : NodeId
  vals : Sparse α
  nextChildIndex : Nat
  slicerPos : Nat
deriving Repr

/-- The inner drain of a slicer slice inside `entries`: emit each present
pair once `index ≥ start`, and stop the whole iteration when
`index ≥ end` (third component `true`). -/
def drainSlice (start stop : Int) (node : NodeId) :
    List (Nat × α) → Int → List (Position × α) →
    List (Position × α) × Int × Bool
  | [], idx, acc => (acc, idx, false)
  | (slot, v) :: rest, idx, acc =>
    let acc2 := if start ≤ idx then acc ++ [((node, slot), v)] else acc
    let idx2 := idx + 1
    if stop ≤ idx2 then (acc2, idx2, true)
    else drainSlice start stop node rest idx2 acc2

/-- The outer `while` loop of `entries` over the explicit stack. `none`
means the fuel ran out (never happens with `entriesFuel`). -/
def entriesLoop (t : OrderTree) (recs : List (NodeId × NodeData α))
    (start stop : Int) :
    Nat → List (Frame α) → Int → List (Position × α) →
    Option (List (Position × α))
  | 0, _, _, _ => none
  | _ + 1, [], _, acc => some acc
  | fuel + 1, top :: rest, idx, acc =>
    let node := top.node
    let stopSlot :=
      if top.nextChildIndex = t.childCounts node then top.vals.length
      else t.nvi (node ++ [top.nextChildIndex])
    let dr := drainSlice start stop node
      (sparseSlice top.vals top.slicerPos stopSlot) idx acc
    if dr.2.2 then some dr.1
    else
      let top2 := { top with slicerPos := stopSlot }
      if top2.nextChildIndex = t.childCounts node then
        entriesLoop t recs start stop fuel rest dr.2.1 dr.1
      else
        let child := node ++ [top2.nextChildIndex]
        let top3 := { top2 with nextChildIndex := top2.nextChildIndex + 1 }
        match lookupRec recs child with
        | none => entriesLoop t recs start stop fuel (top3 :: rest) dr.2.1 dr.1
        | some cd =>
          if cd.total + dr.2.1 ≤ start then
            entriesLoop t recs start stop fuel (top3 :: rest)
              (dr.2.1 + cd.total) dr.1
          else
            entriesLoop t recs start stop fuel
              ({ node := child, vals := cd.values, nextChildIndex := 0,
                 slicerPos := 0 } :: top3 :: rest) dr.2.1 dr.1

/-- Enough fuel for `entriesLoop`: every pushed frame belongs to a distinct
node holding a record, and a frame of node `n` stays on top for at most
`childCounts n + 1` iterations. -/
def entriesFuel (t : OrderTree) (recs : List (NodeId × NodeData α)) : Nat :=
  recs.foldl (fun acc e => acc + t.childCounts e.1 + 1) 2

/-- `ItemList.entries(start, end)`; returns the emitted pairs (`none`
models the crash when the root record is missing although the normalised
range is non-trivial, or fuel exhaustion). -/
def entries (t : OrderTree) (s : ItemState α) (start stop : Option Int) :
    Option (List (Position × α)) :=
  match normalizeSliceRange (length s) start stop with
  | none => some []
  | some r =>
    match lookupRec s.recs [] with
    | none => none
    | some rootData =>
      entriesLoop t s.recs r.1 r.2 (entriesFuel t s.recs)
        [{ node := [], vals := rootData.values, nextChildIndex := 0,
           slicerPos := 0 }] 0 []

/-- `ItemList.save(f)` with `f` the identity on sparse sequences: the
nodes with non-empty values, in state-map iteration order. -/
def save (s : ItemState α) : List (NodeId × Sparse α) :=
  s.recs.filterMap (fun e =>
    if e.2.values.isEmpty then none else some (e.1, e.2.values))

/-- The loop body of `ItemList.load`: resolve each saved node (failing
fast, with the partial state kept, on an unknown one), install the loaded
values and run `onUpdate` with the resulting delta. -/
def loadGo (t : OrderTree) :
    ItemState α → List (NodeId × Sparse α) → Except PErr Unit × ItemState α
  | s, [] => (Except.ok (), s)
  | s, (p, arr) :: rest =>
    if validNode t p then
      let r := getOrCreateData t s.recs p
      let recs2 := setRec r.2 p { r.1 with values := arr }
      let s2 := onUpdate t { s with recs := recs2 } p
        ((sparseSize arr : Int) - (sparseSize r.1.values : Int))
      loadGo t s2 rest
    else (Except.error PErr.missingNode, s)

/-- `ItemList.load(savedState, g)` with `g` the identity: clear, then load
each saved node in saved order. -/
def load (t : OrderTree) (s : ItemState α)
    (saved : List (NodeId × Sparse α)) : Except PErr Unit × ItemState α :=
  loadGo t (clear s) saved

/-- `ItemList.insert(prevPos, item)`. The provider's `createPositions` is
not in `src/`; it is passed as the function `cp`, returning the start
position and the possibly created node, as in spec section 6. -/
def insert (t : OrderTree) (s : ItemState α)
    (cp : Position → Position → Nat → Position × Option NodeId)
    (prevPos : Position) (item : List α) :
    Except PErr (Position × Option NodeId) × ItemState α :=
  let r := indexOfPosition t s prevPos SearchDir.dirLeft
  match positionAt t r.2 (r.1 + 1) with
  | Except.error e => (Except.error e, r.2)
  | Except.ok nextPos =>
    let c := cp prevPos nextPos item.length
    match set t r.2 c.1 item with
    | (Except.error e, s2) => (Except.error e, s2)
    | (Except.ok _, s2) => (Except.ok c, s2)

end ItemList

/-! ### Spec-side definitions -/

/-- Modelled from the spec (section 3.1, list order): the depth-first
enumeration of the present values of the subtree at `p` — a child with
`nextValueIndex = v` sits immediately before slot `v` of its parent,
siblings in provider child order. Fuel bounds the depth. -/
def specEnum (t : OrderTree) (recs : List (NodeId × NodeData α)) :
    Nat → NodeId → List (Position × α)
  | 0, _ => []
  | fuel + 1, p =>
    let vals : Sparse α :=
      match lookupRec recs p with
      | none => []
      | some d => d.values
    let kids := childList t p
    let bound := max vals.length
      ((kids.map (fun c => t.nvi c + 1)).foldl max 0)
    (List.range bound).flatMap (fun v =>
      ((kids.filter (fun c => decide (t.nvi c = v))).flatMap
        (fun c => specEnum t recs fuel c)) ++
      (match vals.getD v none with
       | none => []
       | some x => [((p, v), x)]))

/-- The record invariants claimed in spec section 8 (items 1 and 2): every
record's `total` is positive and equals the present count of its own
values plus the children's record totals. -/
def specInvariant (t : OrderTree) (recs : List (NodeId × NodeData α)) : Bool :=
  recs.all (fun e =>
    decide (0 < e.2.total) &&
    decide (e.2.total = (sparseSize e.2.values : Int) +
      (childList t e.1).foldl (fun acc c => acc + nodeTotal recs c) 0))

/-- The concrete position tree used by the concrete runs below: a root
with a single child (path `[0]`) anchored at `nextValueIndex = 1`. -/
def tree1 : OrderTree :=
  { childCounts := fun p => if p = [] then 1 else 0,
    nvi := fun p => if p = [0] then 1 else 0 }

/-! ### Concrete runs used by the claim theorems -/

/-- The state after the single mutator call `set((child, 0), [7])` on a
fresh list over `tree1`. -/
def runSetChild : ItemState Nat :=
  (ItemList.set tree1 emptyState (([0] : NodeId), 0) [7]).2

/-- The state after `set((root, 0), [10]); set((root, 1), [11])` on a
fresh list — spec section 8, concrete scenario 1 (root-only writes). -/
def rootPairState : ItemState Nat :=
  (ItemList.set tree1
    (ItemList.set tree1 emptyState (([] : NodeId), 0) [10]).2 ([], 1) [11]).2

/-- `set((root, 0), [5])`, then `indexOfPosition((root, 0))` (which caches
the root), then `set((root, 1), [6])` — a mutation of the cached node's
own record. -/
def cachedThenMutated : ItemState Nat :=
  let s1 := (ItemList.set tree1 emptyState (([] : NodeId), 0) [5]).2
  let s2 := (ItemList.indexOfPosition tree1 s1 ([], 0) ItemList.SearchDir.dirNone).2
  (ItemList.set tree1 s2 ([], 1) [6]).2

/-- `set((root, 0), [5]); set((child, 0), [7])`: one value at the root
followed in list order by one value at the child (anchored before root
slot 1). -/
def rootThenChild : ItemState Nat :=
  (ItemList.set tree1
    (ItemList.set tree1 emptyState (([] : NodeId), 0) [5]).2 ([0], 0) [7]).2

/-- `runSetChild` followed by `delete((child, 0), 1)`, removing the only
present value. -/
def setThenDeleted : ItemState Nat :=
  (ItemList.delete tree1 runSetChild (([0] : NodeId), 0) 1).2

/-- A concrete stand-in for the provider's `createPositions` (never
reached by the failing `insert` run below). -/
def cp0 : Position → Position → Nat → Position × Option NodeId :=
  fun _ _ _ => ((([0] : NodeId), 0), some [0])

/-! ### Claim theorems -/

/-- C1: the claim states the section-4.4 maintenance — each ancestor's own
record is created if missing and receives the delta. The source instead
reads `getOrCreateData(node)` (the mutated node) at every step of the
ancestor walk: after `set((child, 0), [7])` on an empty list the child's
record holds `total = 2` (the delta applied once per ancestor, always to
the child) and the root never receives a record, where the claimed
behaviour would give child `total = 1` and root `total = 1`. -/
theorem c1_ancestor_totals_misattributed :
    runSetChild.recs =
      [([0], { total := 2, parentValuesBefore := 0, values := [some 7] })] ∧
    lookupRec runSetChild.recs [] = none := by decide

/-- C2: the claimed record invariants (`total > 0` and
`total = size(values) + Σ child totals`) are violated already after the
single operation `set((child, 0), [7])`: the child's record has
`total = 2` but `size(values) = 1` and no child records, and the root —
whose subtree holds one present value — has no record at all. -/
theorem c2_record_invariant_fails :
    specInvariant tree1 runSetChild.recs = false := by decide

/-- C3: the round-trip `positionAt(indexOfPosition(p)) = p` fails on the
spec's own scenario-1 state `set((root,0),·); set((root,1),·)`: the
position `(root, 0)` is present with `indexOfPosition = 0`, but
`positionAt(0)` hits the source's unconditional `throw` after the child
loop (there is no handling for values that are not strictly before a
child with a record), so it raises the internal error instead of
returning `(root, 0)`. -/
theorem c3_translation_roundtrip_fails :
    ItemList.has rootPairState (([] : NodeId), 0) = true ∧
    (ItemList.indexOfPosition tree1 rootPairState ([], 0)
      ItemList.SearchDir.dirNone).1 = 0 ∧
    ItemList.positionAt tree1 rootPairState 0 =
      Except.error ItemList.PErr.internal :=
  ⟨by decide, by decide, rfl⟩

/-- C4: `insert(prevPos, item)` is claimed to fail only when `prevPos` is
the maximum sentinel or the item is empty. On an empty list with
`prevPos = (root, 0)` (the minimum sentinel) and a one-element item —
neither failure condition — the source still fails: it computes
`nextIndex = indexOfPosition(prevPos, left) + 1 = 0` and calls
`positionAt(0)`, which throws the out-of-bounds error since the length
is 0. -/
theorem c4_insert_fails_on_valid_prev :
    (ItemList.insert tree1 emptyState cp0 ([], 0) [7]).1 =
      Except.error ItemList.PErr.indexOutOfBounds ∧
    (([], 0) : Position) ≠ maxPosition ∧ ([7] : List Nat).length ≠ 0 :=
  ⟨rfl, by decide, by decide⟩

/-- C5: `ItemList.delete` performs no count validation at all (only the
`List` facade in `list.ts` checks `count < 0 || !Number.isInteger`): with
`count = -1` on a node without a record it returns normally with the
state unchanged instead of failing with `InvalidCount`. -/
theorem c5_delete_negative_count_accepted :
    (ItemList.delete tree1 emptyState (([0] : NodeId), 0) (-1)).1 =
      Except.ok [] ∧
    (ItemList.delete tree1 emptyState (([0] : NodeId), 0) (-1)).2 =
      emptyState :=
  ⟨rfl, by decide⟩

/-- C6 counterexample: after `indexOfPosition((root, 0))` caches the root,
the mutator `set((root, 1), [6])` mutates the cached node's own record
(the value is present afterwards), yet the cache is *not* dropped —
refuting the claim's second part. -/
theorem c6_cache_kept_on_cached_node_mutation :
    cachedThenMutated.cachedIndexNode = some ([] : NodeId) ∧
    ItemList.has cachedThenMutated (([] : NodeId), 1) = true := by decide

/-- C6 amended: the post-mutation maintenance step drops the
`beforeNode` cache exactly when the updated node differs from the cached
node, and keeps it when the cached node's own record is the one mutated;
`clear` always drops it. -/
theorem c6_cache_dropped_iff_other_node :
    (∀ (α : Type) (t : OrderTree) (s : ItemState α) (node : NodeId)
      (delta : Int),
      (ItemList.onUpdate t s node delta).cachedIndexNode =
        if s.cachedIndexNode = some node then s.cachedIndexNode else none) ∧
    (∀ (α : Type) (s : ItemState α),
      (ItemList.clear s).cachedIndexNode = none) :=
  ⟨fun _ _ _ _ _ => rfl, fun _ _ => rfl⟩

/-- C7: on `set((root,0),[5]); set((child,0),[7])` the list order is
root[0], child[0] (the child is anchored before root slot 1), so two
present values precede the absent position `(child, 1)` and the present
position `(child, 0)` has index 1. The source's ancestor walk reads
`state.get(current.parent)?.parentValuesBefore` — the *parent's* record
field — so the root's own preceding value is never counted:
`indexOfPosition((child,1), right)` returns 1 instead of 2 and
`indexOfPosition((child,0))` returns 0 instead of 1. -/
theorem c7_indexOfPosition_undercounts :
    (ItemList.indexOfPosition tree1 rootThenChild (([0] : NodeId), 1)
      ItemList.SearchDir.dirRight).1 = 1 ∧
    (ItemList.indexOfPosition tree1 rootThenChild (([0] : NodeId), 0)
      ItemList.SearchDir.dirNone).1 = 0 ∧
    specEnum tree1 rootThenChild.recs 3 [] =
      [((([] : NodeId), 0), 5), (([0], 0), 7)] := by decide

/-- C8: after `set((child,0),[7]); delete((child,0),1)` the state keeps a
record `{total = 0, values = []}` for the child (the zero-total deletion
removed the *root*'s — absent — entry instead), `save` emits nothing, and
`load(save(s))` into a fresh list over the same provider yields the empty
state: `load(save(s))` is not structurally equal to `s`. -/
theorem c8_save_load_not_identity :
    setThenDeleted.recs =
      [([0], { total := 0, parentValuesBefore := 0, values := [] })] ∧
    ItemList.save setThenDeleted = [] ∧
    (ItemList.load tree1 emptyState (ItemList.save setThenDeleted)).2.recs =
      [] := by decide

/-- C9: after the single operation `set((child,0),[7])` the position
`(child, 0)` is present (list order holds exactly that pair), but the
broken subtree totals make `length = 0`, so `entries()` normalises to an
empty range and yields nothing instead of the pair with list index 0. -/
theorem c9_entries_misses_present_value :
    ItemList.entries tree1 runSetChild none none = some [] ∧
    ItemList.has runSetChild (([0] : NodeId), 0) = true ∧
    specEnum tree1 runSetChild.recs 3 [] = [((([0] : NodeId), 0), 7)] := by
  exact ⟨by decide, by decide, by decide⟩

/-- C10: for any position whose node the provider resolves but which has
no record in the state map, `get` returns nothing and `has` returns
false, for every slot index — a missing record reads exactly like an
all-absent sequence. -/
theorem c10_no_record_reads_absent (α : Type) (t : OrderTree)
    (s : ItemState α) (p : NodeId) (vi : Nat) (_hv : validNode t p = true)
    (hr : lookupRec s.recs p = none) :
    ItemList.get s (p, vi) = none ∧ ItemList.has s (p, vi) = false := by
  simp [ItemList.get, ItemList.has, ItemList.getInNode, hr]

/-- C10 witness: the fresh list over `tree1` and the resolvable node
`[0]` at slot 5. -/
theorem c10_no_record_reads_absent_witness :
    ItemList.get emptyState ((([0] : NodeId), 5) : Position) = none ∧
    ItemList.has emptyState ((([0] : NodeId), 5) : Position) = false :=
  c10_no_record_reads_absent Nat tree1 emptyState [0] 5 (by decide) (by decide)

